import Mathlib

/-!
# Verification of the `restest` LRO core

A shallow embedding of the repository's long-running-operation (LRO)
machinery and its supporting helpers:

* `Process` embeds `LongrunningOperation.Process` (src/internal/utils/lro.go);
* `RetryFunc` embeds the backoff retry loop (src/internal/utils/misc.go),
  with time advancing only through the loop's own sleeps (the attempt
  closure is treated as instantaneous) and the sleeps recorded in a trace;
* `CustomProtoMessage` embeds the typed proto-JSON envelope
  (the `CustomProtoMessage` source file);
* `Operation.MarshalJSON` / `Operation.UnmarshalJSON` embed the
  operation's JSON persistence (src/internal/utils/lro.go).

External library collaborators (`protojson`, `anypb`, `encoding/json`) are
modelled at the level of their documented behaviour on the structured
values the code passes them: a proto message is a list of field/value
pairs, `protojson.Unmarshal` is strict about unknown fields unless
`DiscardUnknown` is set, `anypb.UnmarshalNew` fails on a nil `Any` or an
unregistered type URL, and `encoding/json` marshals a non-nil `error`
interface value (whose concrete types here export no fields) as the empty
object and cannot unmarshal a JSON object back into an `error` interface.
-/

/-- A proto message value: the field/value pairs that are set on it.
Models the structured content that `protojson` reads and writes. -/
structure MsgValue where
  vals : List (String × String)
deriving DecidableEq

/-- `google.rpc.Status`-style embedded operation error (`code`, `message`),
as carried by `longrunningpb.Operation.error`. -/
structure StatusProto where
  code : Int
  message : String
deriving DecidableEq

/-- A type-tagged opaque payload (`anypb.Any`): a type URL naming the
concrete schema plus the encoded message content. -/
structure AnyPayload where
  typeUrl : String
  value : List (String × String)
deriving DecidableEq

/-- The poll/trigger result payload (`longrunningpb.Operation`): name,
done flag, optional embedded error, optional type-tagged response. -/
structure OperationPayload where
  name : String
  done : Bool
  error : Option StatusProto
  response : Option AnyPayload
deriving DecidableEq

/-- The errors `Process` can record on the operation, by provenance:
a transport error returned by the trigger/get collaborator, the embedded
remote status converted by `status.ErrorProto`, a failure of
`anypb.UnmarshalNew` on the response payload, or the type-assertion
failure on the decoded response message. -/
inductive OpError where
  | transport (msg : String)
  | remote (code : Int) (message : String)
  | respUnmarshal (msg : String)
  | typeMismatch
deriving DecidableEq

/-- Which collaborator a `Process` step invoked. -/
inductive CallKind where
  | trigger
  | get (name : String)
deriving DecidableEq

/-- The `LongrunningOperation[Req, Resp]` state: exported fields of the Go
struct. `Request` is the statically-typed input (assumed non-nil, as
`CreateLongrunningOperation` receives it); `Response` is nil until a
successful terminal transition. The generic parameters `Req`/`Resp` are
represented by the schemas/type names passed to the operations below. -/
structure Operation where
  OperationName : String
  OperationError : Option OpError
  OperationDone : Bool
  Request : MsgValue
  Response : Option MsgValue
deriving DecidableEq

/-- `CreateLongrunningOperation`: fresh operation holding the request,
with empty name, no error, not done, no response. -/
def CreateLongrunningOperation (req : MsgValue) : Operation :=
  { OperationName := ""
    OperationError := none
    OperationDone := false
    Request := req
    Response := none }

/-- The trigger/get collaborators. Calls are sequenced by a global call
index so that successive polls may observe different remote states:
`trigger i req` / `get i name` is the answer to the i-th collaborator
call. A `.error` result models a transport error. -/
structure CollabEnv where
  trigger : Nat → MsgValue → Except String OperationPayload
  get : Nat → String → Except String OperationPayload

/-- `anypb.UnmarshalNew` on `opResult.GetResponse()`: fails on a nil
`Any` ("invalid nil Any message") or a type URL missing from the
registry; otherwise yields the resolved concrete type name and the
decoded message value. `reg` is the set of registered message types. -/
def anypbUnmarshalNew (reg : List String) (a : Option AnyPayload) :
    Except String (String × MsgValue) :=
  match a with
  | none => .error "invalid nil Any message"
  | some p =>
      if reg.contains p.typeUrl then .ok (p.typeUrl, ⟨p.value⟩)
      else .error "type url not registered"

/-- Result of one `Process` step: the returned `(bool, error)` pair, the
updated operation, the advanced call index, and the collaborator calls
the step made (ghost observables for the no-remote-call properties). -/
structure ProcessResult where
  terminal : Bool
  err : Option OpError
  op : Operation
  callIdx : Nat
  calls : List CallKind
deriving DecidableEq

/-- `LongrunningOperation.Process` (lro.go lines 41-91): return the
recorded terminal outcome if the error is set or done is true; otherwise
trigger (empty name) or get (non-empty name); record a transport error as
terminal; adopt the payload's name and done flag; keep polling while not
done; record an embedded remote error verbatim; otherwise decode the
type-tagged response, recording an unmarshal failure or type mismatch as
terminal error, or storing the response on success. `respType` is the
type name of the static `Resp` parameter checked by `respMsg.(Resp)`. -/
def Process (reg : List String) (respType : String) (env : CollabEnv)
    (callIdx : Nat) (l : Operation) : ProcessResult :=
  if l.OperationError.isSome then
    { terminal := true, err := l.OperationError, op := l, callIdx := callIdx, calls := [] }
  else if l.OperationDone then
    { terminal := true, err := none, op := l, callIdx := callIdx, calls := [] }
  else
    let call : CallKind :=
      if l.OperationName = "" then .trigger else .get l.OperationName
    let opResult : Except String OperationPayload :=
      if l.OperationName = "" then env.trigger callIdx l.Request
      else env.get callIdx l.OperationName
    match opResult with
    | .error msg =>
        let l' := { l with OperationError := some (.transport msg) }
        { terminal := true, err := l'.OperationError, op := l',
          callIdx := callIdx + 1, calls := [call] }
    | .ok p =>
        let l1 := { l with OperationName := p.name, OperationDone := p.done }
        if p.done = false then
          { terminal := false, err := none, op := l1,
            callIdx := callIdx + 1, calls := [call] }
        else
          match p.error with
          | some st =>
              let l2 := { l1 with OperationError := some (.remote st.code st.message) }
              { terminal := true, err := l2.OperationError, op := l2,
                callIdx := callIdx + 1, calls := [call] }
          | none =>
              match anypbUnmarshalNew reg p.response with
              | .error m =>
                  let l2 := { l1 with OperationError := some (.respUnmarshal m) }
                  { terminal := true, err := l2.OperationError, op := l2,
                    callIdx := callIdx + 1, calls := [call] }
              | .ok (tn, v) =>
                  if tn = respType then
                    let l2 := { l1 with Response := some v }
                    { terminal := true, err := none, op := l2,
                      callIdx := callIdx + 1, calls := [call] }
                  else
                    let l2 := { l1 with Response := none,
                                        OperationError := some .typeMismatch }
                    { terminal := true, err := l2.OperationError, op := l2,
                      callIdx := callIdx + 1, calls := [call] }

/-- Iterate `Process` from a call index and operation, threading the call
index so each step sees the next collaborator answers. -/
def iterProcess (reg : List String) (respType : String) (env : CollabEnv) :
    Nat → Nat × Operation → Nat × Operation
  | 0, s => s
  | n + 1, (idx, l) =>
      let r := Process reg respType env idx l
      iterProcess reg respType env n (r.callIdx, r.op)

/-! ## Backoff retry executor (src/internal/utils/misc.go, `RetryFunc`) -/

/-- Ghost trace events of the retry loop: one `attempt` per invocation of
the closure, one `sleep ms` per `time.Sleep` of `ms` milliseconds. -/
inductive RetryEvent where
  | attempt
  | sleep (ms : Nat)
deriving DecidableEq

/-- Number of attempts recorded in a retry trace. -/
def attemptsOf (tr : List RetryEvent) : Nat :=
  tr.countP fun e => match e with | .attempt => true | _ => false

/-- The sleep delays recorded in a retry trace, in order. -/
def delaysOf (tr : List RetryEvent) : List Nat :=
  tr.filterMap fun e => match e with | .sleep ms => some ms | _ => none

/-- The loop body of `RetryFunc`. Time is measured in milliseconds and
advances only through the loop's sleeps (the closure is instantaneous),
so `elapsed` milliseconds have passed since the deadline was taken and
the Go condition `time.Until(deadline) >= 0` reads
`0 ≤ timeout - elapsed`. The closure threads an explicit state `σ`
(modelling the variables the Go closure mutates) and returns `none` for
a nil error. `fuel` bounds the recursion structurally; `RetryFunc` below
supplies `timeout.toNat + 1`, which the loop can never consume before
the deadline check fails, because every iteration advances `elapsed` by
`pause ≥ 50 ≥ 1` (see `retryAux_fuel_stable`). -/
def retryAux {σ : Type} (timeout : Int) (fn : σ → Option String × σ) :
    Nat → Nat → Nat → σ → Option String → List RetryEvent →
    Option String × σ × List RetryEvent
  | 0, _, _, st, lastErr, tr => (lastErr, st, tr)
  | fuel + 1, elapsed, pause, st, lastErr, tr =>
      if 0 ≤ timeout - (elapsed : Int) then
        match fn st with
        | (none, st') => (none, st', tr ++ [.attempt])
        | (some msg, st') =>
            retryAux timeout fn fuel (elapsed + pause) (min (2 * pause) 1000)
              st' (some msg) (tr ++ [.attempt, .sleep pause])
      else (lastErr, st, tr)

/-- `RetryFunc(timeout, fn)`: initial pause 50ms, doubling after every
failed attempt, capped at 1000ms; returns nil on the first successful
attempt, else the last attempt's error once the deadline has passed
(nil when the deadline had passed before any attempt). Also returns the
final closure state and the event trace. -/
def RetryFunc {σ : Type} (timeout : Int) (fn : σ → Option String × σ)
    (st : σ) : Option String × σ × List RetryEvent :=
  retryAux timeout fn (timeout.toNat + 1) 0 50 st none []

/-- Extra fuel is irrelevant while each loop iteration advances time:
with positive pause, any fuel exceeding the remaining whole milliseconds
plus one gives the same result. This justifies the `timeout.toNat + 1`
budget in `RetryFunc` as a faithful rendering of the unbounded Go loop. -/
theorem retryAux_fuel_stable {σ : Type} (timeout : Int)
    (fn : σ → Option String × σ) :
    ∀ (fuel elapsed pause : Nat) (st : σ) (lastErr : Option String)
      (tr : List RetryEvent), 0 < pause →
      (timeout - (elapsed : Int)) < fuel →
      retryAux timeout fn (fuel + 1) elapsed pause st lastErr tr =
        retryAux timeout fn fuel elapsed pause st lastErr tr := by
  intro fuel
  induction fuel with
  | zero =>
      intro elapsed pause st lastErr tr hp hlt
      simp only [retryAux]
      rw [if_neg (by omega)]
  | succ n ih =>
      intro elapsed pause st lastErr tr hp hlt
      rw [retryAux, retryAux]
      by_cases hc : 0 ≤ timeout - (elapsed : Int)
      · rw [if_pos hc, if_pos hc]
        cases hfn : fn st with
        | mk e st' =>
            cases e with
            | none => rfl
            | some msg =>
                simp only
                exact ih (elapsed + pause) (min (2 * pause) 1000) st'
                  (some msg) (tr ++ [.attempt, .sleep pause])
                  (by omega) (by push_cast; omega)
      · rw [if_neg hc, if_neg hc]

/-! ## Typed proto-JSON envelope (`CustomProtoMessage` source file) -/

/-- `protojson.Marshal`: the JSON projection of the message's schema is
its set field/value pairs. A nil typed message marshals as the empty
object. -/
def protojsonMarshal (m : Option MsgValue) : List (String × String) :=
  match m with
  | none => []
  | some v => v.vals

/-- `protojson.Unmarshal` into a fresh instance of a schema with known
field names `schema`: strict by default, failing on any field not in the
schema; with `DiscardUnknown` set, unknown fields are dropped instead.
Models the documented protojson semantics the code relies on. -/
def protojsonUnmarshal (discardUnknown : Bool) (schema : List String)
    (data : List (String × String)) : Except String MsgValue :=
  if discardUnknown then
    .ok ⟨data.filter fun kv => schema.contains kv.1⟩
  else if data.all fun kv => schema.contains kv.1 then
    .ok ⟨data⟩
  else
    .error "unknown field"

/-- `CustomProtoMessage[M]`: wraps a proto message of type `M`. In Go `M`
is a nullable pointer type, so the wrapped value may itself be nil. -/
structure CustomProtoMessage where
  Msg : Option MsgValue
deriving DecidableEq

/-- `CustomProtoMessage.MarshalJSON`: delegates to `protojson.Marshal`
on the wrapped message. -/
def CustomProtoMessage.MarshalJSON (pm : CustomProtoMessage) :
    List (String × String) :=
  protojsonMarshal pm.Msg

/-- `CustomProtoMessage.UnmarshalJSON`: builds a fresh zero instance of
`M`'s schema via `ProtoReflect().New()` (the receiver contributes only
its static type, modelled by `schema`) and decodes with plain
`protojson.Unmarshal` — no `DiscardUnknown` option, hence strict. The
subsequent type assertion `m.(M)` always succeeds since the fresh
instance has type `M`. -/
def CustomProtoMessage.UnmarshalJSON (schema : List String)
    (data : List (String × String)) : Except String CustomProtoMessage :=
  match protojsonUnmarshal false schema data with
  | .error e => .error e
  | .ok m => .ok ⟨some m⟩

/-- `CreateCustomProtoMessage`: returns nil (absent) when the given
message is a nil reference, else a populated envelope. -/
def CreateCustomProtoMessage (m : Option MsgValue) :
    Option CustomProtoMessage :=
  match m with
  | none => none
  | some v => some ⟨some v⟩

/-! ## Operation JSON persistence (lro.go, `MarshalJSON`/`UnmarshalJSON`) -/

/-- The JSON encoding of the `OperationError` field. The field has Go
interface type `error`; `encoding/json` writes `null` for a nil error and
`{}` for every concrete error type used here (they export no fields:
`fmt.Errorf` wrap errors and `status.Error` keep their data unexported). -/
inductive ErrJson where
  | null
  | obj
deriving DecidableEq

/-- The serialized operation document: the promoted alias fields
(`OperationName`, `OperationError`, `OperationDone`) plus the
protojson-encoded `Requestbytes`/`Responsebytes`. The alias also embeds
raw `Request`/`Response` projections, but `UnmarshalJSON` overwrites both
from the byte fields, so they are omitted here. -/
structure LroDoc where
  OperationName : String
  OperationErrorJson : ErrJson
  OperationDone : Bool
  Requestbytes : List (String × String)
  Responsebytes : List (String × String)
deriving DecidableEq

/-- `LongrunningOperation.MarshalJSON`: protojson-encode the request and
response (a nil response marshals as the empty object) and emit the alias
fields alongside; a non-nil `OperationError` serializes as `{}`. -/
def Operation.MarshalJSON (l : Operation) : LroDoc :=
  { OperationName := l.OperationName
    OperationErrorJson :=
      match l.OperationError with
      | none => .null
      | some _ => .obj
    OperationDone := l.OperationDone
    Requestbytes := protojsonMarshal (some l.Request)
    Responsebytes := protojsonMarshal l.Response }

/-- `LongrunningOperation.UnmarshalJSON` on receiver `l`:
`json.Unmarshal` into the holder fails when the `OperationError` document
value is a JSON object, since an object cannot be decoded into the `error`
interface; on success the alias fields are copied onto the receiver and
the request/response are rebuilt from their protojson bytes into fresh
instances of the static schemas (strict decode, no `DiscardUnknown`).
Fields not present in the document — the unexported trigger/get
collaborators — are untouched on the receiver. -/
def Operation.UnmarshalJSON (reqSchema respSchema : List String)
    (l : Operation) (d : LroDoc) : Except String Operation :=
  match d.OperationErrorJson with
  | .obj => .error "json: cannot unmarshal object into Go value of type error"
  | .null =>
      match protojsonUnmarshal false reqSchema d.Requestbytes with
      | .error e => .error e
      | .ok req =>
          match protojsonUnmarshal false respSchema d.Responsebytes with
          | .error e => .error e
          | .ok resp =>
              .ok { l with
                      OperationName := d.OperationName
                      OperationDone := d.OperationDone
                      OperationError := none
                      Request := req
                      Response := some resp }

/-! ## `ProcessLongRunningOperationToCompletion` (lro.go lines 152-173) -/

/-- The state the completion driver's closure mutates: the operation, the
collaborator call index, and the captured `isdone`/`innererr` variables. -/
structure LroLoopState where
  op : Operation
  callIdx : Nat
  isdone : Bool
  innererr : Option OpError
deriving DecidableEq

/-- The closure passed to `RetryFunc`: run one `Process` step, store its
results in the captured variables, and report failure ("trying continues")
while the step is non-terminal. -/
def lroStep (reg : List String) (respType : String) (env : CollabEnv)
    (st : LroLoopState) : Option String × LroLoopState :=
  let r := Process reg respType env st.callIdx st.op
  let st' : LroLoopState :=
    { op := r.op, callIdx := r.callIdx, isdone := r.terminal, innererr := r.err }
  (if r.terminal then none else some "trying continues", st')

/-- The driver's outcome: the distinct "timed-out while retrying" error
when `RetryFunc` exhausts its deadline, else the last `Process` error. -/
inductive LroOutcome where
  | timedOut
  | finished (e : Option OpError)
deriving DecidableEq

/-- `ProcessLongRunningOperationToCompletion`: drive `Process` through
`RetryFunc` with a 10-minute (600000 ms) deadline; a retry-loop failure
becomes the distinct timeout error, otherwise the captured inner error is
returned. Also returns the operation as the loop left it. -/
def ProcessLongRunningOperationToCompletion (reg : List String)
    (respType : String) (env : CollabEnv) (l : Operation) :
    LroOutcome × Operation :=
  let r := RetryFunc 600000 (lroStep reg respType env)
    { op := l, callIdx := 0, isdone := false, innererr := none }
  match r.1 with
  | some _ => (.timedOut, r.2.1.op)
  | none => (.finished r.2.1.innererr, r.2.1.op)

/-! ## Concrete fixtures used by witnesses and counterexamples -/

/-- A completed operation with a stored response. -/
def opDoneW : Operation :=
  ⟨"op-1", none, true, ⟨[("msg", "ping")]⟩, some ⟨[("msg", "pong")]⟩⟩

/-- An in-progress operation that has already been named. -/
def opInProgressW : Operation :=
  ⟨"op-1", none, false, ⟨[("msg", "ping")]⟩, none⟩

/-- Collaborators that are never reached. -/
def envUnusedW : CollabEnv :=
  ⟨fun _ _ => .error "unused", fun _ _ => .error "unused"⟩

/-- Get collaborator answering with a payload named differently from the
operation's current name. -/
def envRenameW : CollabEnv :=
  ⟨fun _ _ => .error "unused", fun _ _ => .ok ⟨"op-2", false, none, none⟩⟩

/-- Get collaborator answering done with an embedded remote error. -/
def envRemoteErrW : CollabEnv :=
  ⟨fun _ _ => .error "unused",
   fun _ _ => .ok ⟨"op-1", true, some ⟨3, "bad input"⟩, none⟩⟩

/-- An attempt closure over state `Nat` that always fails and counts its
invocations in the state. -/
def alwaysFailNat : Nat → Option String × Nat :=
  fun n => (some "attempt failed", n + 1)

/-! ## C1: terminal states are sinks -/

/-- C1: once an operation is terminal (its error is set or its done flag
is true), `Process` returns the identical terminal outcome — terminal
`true` with the recorded error (nil when none) — leaves the operation and
call index unchanged, and makes no trigger/get collaborator call. -/
theorem process_terminal_is_noop (reg : List String) (respType : String)
    (env : CollabEnv) (callIdx : Nat) (l : Operation)
    (h : l.OperationError.isSome ∨ l.OperationDone = true) :
    Process reg respType env callIdx l =
      { terminal := true, err := l.OperationError, op := l,
        callIdx := callIdx, calls := [] } := by
  cases hE : l.OperationError with
  | some e => simp [Process, hE]
  | none =>
      have hd : l.OperationDone = true := by
        rcases h with h | h
        · rw [hE] at h; simp at h
        · exact h
      simp [Process, hE, hd]

/-- Witness for `process_terminal_is_noop` at a completed operation. -/
theorem process_terminal_is_noop_witness :
    (opDoneW.OperationError.isSome ∨ opDoneW.OperationDone = true) ∧
    Process ["EchoResponse"] "EchoResponse" envUnusedW 0 opDoneW =
      { terminal := true, err := opDoneW.OperationError, op := opDoneW,
        callIdx := 0, calls := [] } :=
  ⟨Or.inr (by decide),
   process_terminal_is_noop ["EchoResponse"] "EchoResponse" envUnusedW 0
     opDoneW (Or.inr (by decide))⟩

/-! ## C2: operation name across polls -/

/-- C2 counterexample: the claim that a non-empty name never changes is
false. An operation named "op-1" polled against a Get collaborator that
answers with name "op-2" comes out of `Process` renamed to "op-2". -/
theorem process_name_overwrite_cex :
    opInProgressW.OperationName ≠ "" ∧
    (Process [] "EchoResponse" envRenameW 0 opInProgressW).op.OperationName ≠
      opInProgressW.OperationName := by decide

/-- C2 amended: name adoption is last-write-wins, not write-once. On every
successful trigger/get call, `Process` overwrites the operation's name
with the payload's name, whatever the previous name was; the name is
preserved only while no successful call is made (terminal no-op or
transport error). -/
theorem process_name_last_write_wins (reg : List String) (respType : String)
    (env : CollabEnv) (callIdx : Nat) (l : Operation) (p : OperationPayload)
    (hE : l.OperationError = none) (hD : l.OperationDone = false)
    (hcall : (if l.OperationName = "" then env.trigger callIdx l.Request
              else env.get callIdx l.OperationName) = .ok p) :
    (Process reg respType env callIdx l).op.OperationName = p.name := by
  simp only [Process, hE, Option.isSome_none, Bool.false_eq_true, if_false,
    hD, hcall]
  rcases p with ⟨n, d, e, r⟩
  cases d with
  | false => simp
  | true =>
      cases e with
      | some st => simp
      | none =>
          rcases h2 : anypbUnmarshalNew reg r with m | ⟨tn, v⟩
          · simp [h2]
          · by_cases h3 : tn = respType <;> simp [h2, h3]

/-- Witness for `process_name_last_write_wins` on a renaming Get answer. -/
theorem process_name_last_write_wins_witness :
    opInProgressW.OperationError = none ∧ opInProgressW.OperationDone = false ∧
    (if opInProgressW.OperationName = "" then
        envRenameW.trigger 0 opInProgressW.Request
      else envRenameW.get 0 opInProgressW.OperationName) =
      .ok ⟨"op-2", false, none, none⟩ ∧
    (Process [] "EchoResponse" envRenameW 0 opInProgressW).op.OperationName =
      "op-2" :=
  ⟨rfl, rfl, rfl,
   process_name_last_write_wins [] "EchoResponse" envRenameW 0 opInProgressW
     ⟨"op-2", false, none, none⟩ rfl rfl rfl⟩

/-! ## C9: embedded remote errors surface verbatim -/

/-- C9: when the poll result is done with embedded error code 3 and
message "bad input", `Process` returns terminal `true` with an error
carrying exactly that code and message, records it on the operation, and
leaves the response unset. -/
theorem process_remote_error_verbatim :
    (Process [] "EchoResponse" envRemoteErrW 0 opInProgressW).terminal = true ∧
    (Process [] "EchoResponse" envRemoteErrW 0 opInProgressW).err =
      some (.remote 3 "bad input") ∧
    (Process [] "EchoResponse" envRemoteErrW 0 opInProgressW).op.OperationError =
      some (.remote 3 "bad input") ∧
    (Process [] "EchoResponse" envRemoteErrW 0 opInProgressW).op.Response =
      none := by decide

/-! ## C3: first attempt versus an already-expired deadline -/

/-- C3 counterexample: with a negative timeout the deadline check, which
runs before the first attempt, already fails, so the closure is never
invoked — the closure state is untouched, the trace holds zero attempts,
and the loop returns a nil error. This refutes the claim that at least
one attempt is always made. -/
theorem retry_negative_timeout_no_attempt_cex :
    ¬ 1 ≤ attemptsOf (RetryFunc (-1) alwaysFailNat 0).2.2 ∧
    (RetryFunc (-1) alwaysFailNat 0).2.1 = 0 ∧
    (RetryFunc (-1) alwaysFailNat 0).1 = none := by decide

/-- Attempts already in the accumulated trace are preserved by the rest
of the retry loop: the attempt count only grows. -/
theorem attemptsOf_retryAux_mono {σ : Type} (timeout : Int)
    (fn : σ → Option String × σ) :
    ∀ (fuel elapsed pause : Nat) (st : σ) (lastErr : Option String)
      (tr : List RetryEvent),
      attemptsOf tr ≤
        attemptsOf (retryAux timeout fn fuel elapsed pause st lastErr tr).2.2 := by
  intro fuel
  induction fuel with
  | zero => intro _ _ _ _ _; simp [retryAux]
  | succ n ih =>
      intro elapsed pause st lastErr tr
      rw [retryAux]
      by_cases hc : 0 ≤ timeout - (elapsed : Int)
      · rw [if_pos hc]
        cases hfn : fn st with
        | mk e st' =>
            cases e with
            | none => simp [attemptsOf]
            | some msg =>
                calc attemptsOf tr ≤
                    attemptsOf (tr ++ [.attempt, .sleep pause]) := by
                      simp [attemptsOf]
                  _ ≤ _ := ih _ _ _ _ _
      · rw [if_neg hc]

/-- C3 amended: the attempt closure is invoked at least once whenever the
supplied timeout is non-negative (the deadline is not already in the
past); with a negative timeout the loop's pre-attempt deadline check
fails immediately and zero attempts are made. -/
theorem retry_at_least_one_attempt {σ : Type} (fn : σ → Option String × σ)
    (st : σ) (timeout : Int) (h : 0 ≤ timeout) :
    1 ≤ attemptsOf (RetryFunc timeout fn st).2.2 := by
  unfold RetryFunc
  rw [retryAux]
  rw [if_pos (by push_cast; omega)]
  cases hfn : fn st with
  | mk e st' =>
      cases e with
      | none => simp [attemptsOf]
      | some msg =>
          calc 1 ≤ attemptsOf ([] ++ [RetryEvent.attempt, .sleep 50]) := by
                simp [attemptsOf]
            _ ≤ _ := attemptsOf_retryAux_mono timeout fn _ _ _ _ _ _

/-- Witness for `retry_at_least_one_attempt` at timeout zero. -/
theorem retry_at_least_one_attempt_witness :
    (0 : Int) ≤ 0 ∧ 1 ≤ attemptsOf (RetryFunc 0 alwaysFailNat 0).2.2 :=
  ⟨by decide, retry_at_least_one_attempt alwaysFailNat 0 0 (by decide)⟩

/-! ## C6: backoff sequence under a 5-second deadline -/

/-- C6: against a permanently failing attempt closure and a 5000 ms
deadline, the recorded sleep delays are exactly 50, 100, 200, 400, 800 ms
and then 1000 ms repeatedly (doubling after every failed attempt, capped
at 1000 ms), the trace starts with an attempt rather than a sleep, and at
least 4 attempts are made (9 in fact). -/
theorem retry_backoff_sequence_5s :
    delaysOf (RetryFunc 5000 alwaysFailNat 0).2.2 =
      [50, 100, 200, 400, 800, 1000, 1000, 1000, 1000] ∧
    (RetryFunc 5000 alwaysFailNat 0).2.2.head? = some .attempt ∧
    attemptsOf (RetryFunc 5000 alwaysFailNat 0).2.2 = 9 ∧
    4 ≤ attemptsOf (RetryFunc 5000 alwaysFailNat 0).2.2 := by decide

/-! ## C4: unknown fields during envelope deserialization -/

/-- C4 counterexample: a document for a schema knowing only `msg` that
also carries a `details` field is rejected by
`CustomProtoMessage.UnmarshalJSON` — it fails instead of ignoring the
unknown field, because the code calls plain `protojson.Unmarshal` without
the `DiscardUnknown` option. -/
theorem unmarshal_unknown_field_cex :
    CustomProtoMessage.UnmarshalJSON ["msg"]
        [("msg", "pong"), ("details", "x")] =
      .error "unknown field" := rfl

/-- C4 amended: `CustomProtoMessage.UnmarshalJSON` decodes strictly — any
serialized document containing a field unknown to the schema of the
message type is rejected with an error, never silently accepted. -/
theorem unmarshal_rejects_unknown_fields (schema : List String)
    (data : List (String × String))
    (h : (data.all fun kv => schema.contains kv.1) = false) :
    CustomProtoMessage.UnmarshalJSON schema data = .error "unknown field" := by
  unfold CustomProtoMessage.UnmarshalJSON protojsonUnmarshal
  rw [h]
  simp

/-- Witness for `unmarshal_rejects_unknown_fields` on a document with one
unknown field. -/
theorem unmarshal_rejects_unknown_fields_witness :
    (([("msg", "pong"), ("details", "x")].all
        fun kv => ["msg"].contains kv.1) = false) ∧
    CustomProtoMessage.UnmarshalJSON ["msg"]
        [("msg", "pong"), ("details", "x")] =
      .error "unknown field" :=
  ⟨by decide,
   unmarshal_rejects_unknown_fields ["msg"] [("msg", "pong"), ("details", "x")]
     (by decide)⟩


/-! ## C5: envelope round trip and wrapping of nil messages -/

/-- C5: serializing a non-absent envelope whose wrapped message holds
only schema-known fields and deserializing the result restores the
identical envelope; and `CreateCustomProtoMessage` of a nil message
yields the absent envelope, never a populated one. -/
theorem envelope_roundtrip_and_wrap_nil (schema : List String)
    (e : CustomProtoMessage) (v : MsgValue) (hm : e.Msg = some v)
    (hwf : (v.vals.all fun kv => schema.contains kv.1) = true) :
    CustomProtoMessage.UnmarshalJSON schema e.MarshalJSON = .ok e ∧
    CreateCustomProtoMessage none = none := by
  refine ⟨?_, rfl⟩
  rcases e with ⟨me⟩
  simp only at hm
  subst hm
  rcases v with ⟨vs⟩
  simp only at hwf
  unfold CustomProtoMessage.MarshalJSON protojsonMarshal
    CustomProtoMessage.UnmarshalJSON protojsonUnmarshal
  simp only
  rw [hwf]
  simp

/-- Witness for `envelope_roundtrip_and_wrap_nil` on a one-field echo
message. -/
theorem envelope_roundtrip_and_wrap_nil_witness :
    ((CustomProtoMessage.mk (some ⟨[("msg", "pong")]⟩)).Msg =
      some ⟨[("msg", "pong")]⟩) ∧
    (([("msg", "pong")].all fun kv => ["msg"].contains kv.1) = true) ∧
    (CustomProtoMessage.UnmarshalJSON ["msg"]
        (CustomProtoMessage.mk (some ⟨[("msg", "pong")]⟩)).MarshalJSON =
      .ok (CustomProtoMessage.mk (some ⟨[("msg", "pong")]⟩)) ∧
    CreateCustomProtoMessage none = none) :=
  ⟨rfl, by decide,
   envelope_roundtrip_and_wrap_nil ["msg"]
     (CustomProtoMessage.mk (some ⟨[("msg", "pong")]⟩)) ⟨[("msg", "pong")]⟩
     rfl (by decide)⟩

/-! ## C10: response/error exclusivity invariant -/

/-- Inductive invariant backing C10: error and response are never both
populated; a populated response implies a successful completion (done set,
no error); and a set done flag implies a populated response or error. -/
def ExclusiveInv (l : Operation) : Prop :=
  (l.OperationError = none ∨ l.Response = none) ∧
  (l.Response ≠ none → l.OperationError = none ∧ l.OperationDone = true) ∧
  (l.OperationDone = true → l.Response ≠ none ∨ l.OperationError ≠ none)

/-- Every `Process` step preserves `ExclusiveInv`. -/
theorem processPreservesExclusiveInv (reg : List String) (respType : String)
    (env : CollabEnv) (callIdx : Nat) (l : Operation)
    (h : ExclusiveInv l) :
    ExclusiveInv (Process reg respType env callIdx l).op := by
  rcases hE : l.OperationError with _ | e
  · by_cases hD : l.OperationDone = true
    · simpa [Process, hE, hD] using h
    · have hD' : l.OperationDone = false := by
        cases hd : l.OperationDone
        · rfl
        · exact absurd hd hD
      have hR : l.Response = none := by
        rcases hr : l.Response with _ | v
        · rfl
        · exact absurd ((h.2.1 (by rw [hr]; simp)).2) hD
      simp only [Process, hE, Option.isSome_none, Bool.false_eq_true,
        if_false, hD']
      rcases hcall : (if l.OperationName = "" then env.trigger callIdx l.Request
        else env.get callIdx l.OperationName) with msg | p
      · simp [ExclusiveInv, hcall, hR]
      · rcases p with ⟨n, d, e, r⟩
        simp only [hcall]
        cases d with
        | false => simp [ExclusiveInv, hE, hR]
        | true =>
            cases e with
            | some st => simp [ExclusiveInv, hR]

            | none =>
                rcases h2 : anypbUnmarshalNew reg r with m | ⟨tn, v⟩
                · simp [ExclusiveInv, h2, hR]
                · by_cases h3 : tn = respType <;>
                    simp [ExclusiveInv, h2, h3, hE]
  · simpa [Process, hE] using h

/-- `iterProcess` preserves `ExclusiveInv` from any start. -/
theorem iterProcessExclusiveInv (reg : List String) (respType : String)
    (env : CollabEnv) :
    ∀ (n idx : Nat) (l : Operation), ExclusiveInv l →
      ExclusiveInv (iterProcess reg respType env n (idx, l)).2 := by
  intro n
  induction n with
  | zero => intro idx l h; exact h
  | succ k ih =>
      intro idx l h
      exact ih _ _ (processPreservesExclusiveInv reg respType env idx l h)

/-- C10: starting from a freshly created operation, after any number of
`Process` steps against any collaborators, at most one of response and
error is populated, and when neither is populated the done flag is false
(the operation is exactly in progress). -/
theorem process_response_error_exclusive (reg : List String)
    (respType : String) (env : CollabEnv) (req : MsgValue) (n : Nat) :
    ¬((iterProcess reg respType env n (0, CreateLongrunningOperation req)).2.Response ≠ none ∧
      (iterProcess reg respType env n (0, CreateLongrunningOperation req)).2.OperationError ≠ none) ∧
    ((iterProcess reg respType env n (0, CreateLongrunningOperation req)).2.Response = none ∧
      (iterProcess reg respType env n (0, CreateLongrunningOperation req)).2.OperationError = none →
      (iterProcess reg respType env n (0, CreateLongrunningOperation req)).2.OperationDone = false) := by
  have hinv := iterProcessExclusiveInv reg respType env n 0
    (CreateLongrunningOperation req)
    (by simp [ExclusiveInv, CreateLongrunningOperation])
  obtain ⟨h1, _, h3⟩ := hinv
  constructor
  · rintro ⟨hr, he⟩
    rcases h1 with h | h
    · exact he h
    · exact hr h
  · rintro ⟨hr, he⟩
    cases hd : (iterProcess reg respType env n
        (0, CreateLongrunningOperation req)).2.OperationDone
    · rfl
    · rcases h3 hd with h | h
      · exact absurd hr h
      · exact absurd he h

/-! ## C7: operation serialization round trip -/

/-- An operation holding a recorded remote error, for the C7
counterexample. -/
def opErrW : Operation :=
  ⟨"op-1", some (.remote 3 "bad input"), true, ⟨[("msg", "ping")]⟩, none⟩

/-- C7 counterexample: an operation whose error is set does not round
trip. Its `OperationError` interface field marshals as the empty JSON
object, and `UnmarshalJSON` fails to decode an object back into the
`error` interface, so deserialization errors out instead of
reconstructing the operation. -/
theorem operation_roundtrip_error_cex :
    Operation.UnmarshalJSON ["msg"] ["msg"]
        (CreateLongrunningOperation ⟨[("msg", "ping")]⟩)
        opErrW.MarshalJSON =
      .error "json: cannot unmarshal object into Go value of type error" :=
  rfl

/-- C7 amended: for an operation whose error is unset (and whose
request/response fields carry only schema-known fields), deserializing
the serialized document onto a receiver reconstructs the name, done flag,
nil error, and request exactly, and reconstructs the response as the
original when it was populated and as a fresh zero-valued message when it
was unset; all fields absent from the document — in particular the
unexported trigger/get collaborators needed to resume polling — are kept
from the receiver. Operations with a recorded error do not round trip at
all: their error marshals as an empty JSON object, which `UnmarshalJSON`
cannot decode back into the `error` interface and rejects. -/
theorem operation_roundtrip_no_error (reqSchema respSchema : List String)
    (l l0 : Operation) (hE : l.OperationError = none)
    (hreq : (l.Request.vals.all fun kv => reqSchema.contains kv.1) = true)
    (hresp : ∀ v, l.Response = some v →
      (v.vals.all fun kv => respSchema.contains kv.1) = true) :
    Operation.UnmarshalJSON reqSchema respSchema l0 l.MarshalJSON =
      .ok { l0 with
              OperationName := l.OperationName
              OperationDone := l.OperationDone
              OperationError := none
              Request := l.Request
              Response := some (l.Response.getD ⟨[]⟩) } := by
  unfold Operation.UnmarshalJSON Operation.MarshalJSON
  rw [hE]
  simp only [protojsonMarshal, protojsonUnmarshal]
  rcases hq : l.Request with ⟨qs⟩
  rw [hq] at hreq
  simp only at hreq
  rw [hreq]
  rcases hr : l.Response with _ | v
  · simp
  · have hv := hresp v hr
    rcases v with ⟨vs⟩
    simp only at hv
    rw [hv]
    simp

/-- Witness for `operation_roundtrip_no_error` on a completed operation
with a stored response. -/
theorem operation_roundtrip_no_error_witness :
    opDoneW.OperationError = none ∧
    ((opDoneW.Request.vals.all fun kv => ["msg"].contains kv.1) = true) ∧
    (∀ v, opDoneW.Response = some v →
      (v.vals.all fun kv => ["msg"].contains kv.1) = true) ∧
    Operation.UnmarshalJSON ["msg"] ["msg"]
        (CreateLongrunningOperation ⟨[("msg", "ping")]⟩)
        opDoneW.MarshalJSON =
      .ok { CreateLongrunningOperation ⟨[("msg", "ping")]⟩ with
              OperationName := opDoneW.OperationName
              OperationDone := opDoneW.OperationDone
              OperationError := none
              Request := opDoneW.Request
              Response := some (opDoneW.Response.getD ⟨[]⟩) } :=
  ⟨rfl, by decide,
   fun v hv => by
     rw [show opDoneW.Response = some ⟨[("msg", "pong")]⟩ from rfl] at hv
     cases hv
     decide,
   operation_roundtrip_no_error ["msg"] ["msg"] opDoneW
     (CreateLongrunningOperation ⟨[("msg", "ping")]⟩) rfl (by decide)
     (fun v hv => by
       rw [show opDoneW.Response = some ⟨[("msg", "pong")]⟩ from rfl] at hv
       cases hv
       decide)⟩

/-! ## C8: deadline exhaustion leaves the operation untouched -/

/-- If every closure call from an invariant state fails and preserves the
invariant, the retry loop preserves the invariant and returns either its
incoming last-error value or some failure. -/
theorem retryAux_all_fail {σ : Type} (timeout : Int)
    (fn : σ → Option String × σ) (P : σ → Prop)
    (hfn : ∀ s, P s → (fn s).1.isSome ∧ P (fn s).2) :
    ∀ (fuel elapsed pause : Nat) (st : σ) (lastErr : Option String)
      (tr : List RetryEvent), P st →
      P (retryAux timeout fn fuel elapsed pause st lastErr tr).2.1 ∧
      ((retryAux timeout fn fuel elapsed pause st lastErr tr).1 = lastErr ∨
        (retryAux timeout fn fuel elapsed pause st lastErr tr).1.isSome) := by
  intro fuel
  induction fuel with
  | zero =>
      intro elapsed pause st lastErr tr hst
      exact ⟨hst, Or.inl rfl⟩
  | succ n ih =>
      intro elapsed pause st lastErr tr hst
      rw [retryAux]
      by_cases hc : 0 ≤ timeout - (elapsed : Int)
      · rw [if_pos hc]
        have h1 := hfn st hst
        rcases hfe : fn st with ⟨e, st'⟩
        rw [hfe] at h1
        cases e with
        | none => simp at h1
        | some msg =>
            simp only
            rcases ih (elapsed + pause) (min (2 * pause) 1000) st' (some msg)
              (tr ++ [.attempt, .sleep pause]) h1.2 with ⟨hP, hOr⟩
            refine ⟨hP, Or.inr ?_⟩
            rcases hOr with h | h
            · rw [h]; rfl
            · exact h
      · rw [if_neg hc]
        exact ⟨hst, Or.inl rfl⟩

/-- `RetryFunc` with a non-negative timeout and an always-failing,
invariant-preserving closure returns a failure (the deadline is
exhausted after at least one attempt) with the invariant holding of the
final closure state. -/
theorem RetryFunc_all_fail {σ : Type} (timeout : Int) (h0 : 0 ≤ timeout)
    (fn : σ → Option String × σ) (P : σ → Prop)
    (hfn : ∀ s, P s → (fn s).1.isSome ∧ P (fn s).2)
    (st : σ) (hst : P st) :
    (RetryFunc timeout fn st).1.isSome ∧ P (RetryFunc timeout fn st).2.1 := by
  unfold RetryFunc
  rw [retryAux]
  rw [if_pos (by push_cast; omega)]
  have h1 := hfn st hst
  rcases hfe : fn st with ⟨e, st'⟩
  rw [hfe] at h1
  cases e with
  | none => simp at h1
  | some msg =>
      simp only
      rcases retryAux_all_fail timeout fn P hfn timeout.toNat (0 + 50)
        (min (2 * 50) 1000) st' (some msg) ([] ++ [.attempt, .sleep 50]) h1.2
        with ⟨hP, hOr⟩
      refine ⟨?_, hP⟩
      rcases hOr with h | h
      · rw [h]; rfl
      · exact h

/-- The frame the completion driver must preserve while the operation
never reports done: no stored error, done still false, and the response
and request exactly as on the starting operation `l`. -/
def TimeoutFrameInv (l : Operation) (st : LroLoopState) : Prop :=
  st.op.OperationError = none ∧ st.op.OperationDone = false ∧
  st.op.Response = l.Response ∧ st.op.Request = l.Request

/-- One driver step against collaborators that always answer successfully
with a not-done payload: the step reports "trying continues" and
preserves the frame. -/
theorem lroStep_notdone (reg : List String) (respType : String)
    (env : CollabEnv) (l : Operation)
    (htr : ∀ i req, ∃ p, env.trigger i req = Except.ok p ∧ p.done = false)
    (hget : ∀ i name, ∃ p, env.get i name = Except.ok p ∧ p.done = false) :
    ∀ s : LroLoopState, TimeoutFrameInv l s →
      (lroStep reg respType env s).1.isSome ∧
      TimeoutFrameInv l (lroStep reg respType env s).2 := by
  intro s hs
  obtain ⟨hsE, hsD, hsR, hsQ⟩ := hs
  unfold lroStep
  by_cases hname : s.op.OperationName = ""
  · obtain ⟨p, hp, hpd⟩ := htr s.callIdx s.op.Request
    rw [hsQ] at hp
    simp [Process, hsE, hsD, hname, hp, hpd, TimeoutFrameInv, hsR, hsQ]
  · obtain ⟨p, hp, hpd⟩ := hget s.callIdx s.op.OperationName
    simp [Process, hsE, hsD, hname, hp, hpd, TimeoutFrameInv, hsR, hsQ]

/-- C8: when the completion driver's deadline is exhausted against
collaborators that keep answering not-done, it returns the distinct
timeout outcome, and the timeout is not stored on the operation: the
final operation still has no error, done is still false, and response and
request are exactly as before, so a fresh driver call can continue
polling the still-in-progress operation. -/
theorem await_timeout_not_stored (reg : List String) (respType : String)
    (env : CollabEnv) (l : Operation)
    (htr : ∀ i req, ∃ p, env.trigger i req = Except.ok p ∧ p.done = false)
    (hget : ∀ i name, ∃ p, env.get i name = Except.ok p ∧ p.done = false)
    (hE : l.OperationError = none) (hD : l.OperationDone = false) :
    (ProcessLongRunningOperationToCompletion reg respType env l).1 =
      .timedOut ∧
    (ProcessLongRunningOperationToCompletion reg respType env l).2.OperationError =
      none ∧
    (ProcessLongRunningOperationToCompletion reg respType env l).2.OperationDone =
      false ∧
    (ProcessLongRunningOperationToCompletion reg respType env l).2.Response =
      l.Response ∧
    (ProcessLongRunningOperationToCompletion reg respType env l).2.Request =
      l.Request := by
  have hmain := RetryFunc_all_fail 600000 (by norm_num)
    (lroStep reg respType env) (TimeoutFrameInv l)
    (lroStep_notdone reg respType env l htr hget)
    ⟨l, 0, false, none⟩ ⟨hE, hD, rfl, rfl⟩
  rcases hres : RetryFunc 600000 (lroStep reg respType env)
      ⟨l, 0, false, none⟩ with ⟨e, st', tr⟩
  rw [hres] at hmain
  obtain ⟨hsome, hP⟩ := hmain
  cases e with
  | none => simp at hsome
  | some m =>
      obtain ⟨a, b, c, d⟩ := hP
      have hout : ProcessLongRunningOperationToCompletion reg respType env l =
          (.timedOut, st'.op) := by
        simp only [ProcessLongRunningOperationToCompletion, hres]
      rw [hout]
      exact ⟨rfl, a, b, c, d⟩

/-- Collaborators that always answer not-done, for the C8 witness. -/
def envNeverDoneW : CollabEnv :=
  ⟨fun _ _ => .ok ⟨"op-1", false, none, none⟩,
   fun _ _ => .ok ⟨"op-1", false, none, none⟩⟩

/-- Witness for `await_timeout_not_stored` against always-not-done
collaborators. -/
theorem await_timeout_not_stored_witness :
    (∀ i req, ∃ p, envNeverDoneW.trigger i req = Except.ok p ∧
      p.done = false) ∧
    (∀ i name, ∃ p, envNeverDoneW.get i name = Except.ok p ∧
      p.done = false) ∧
    (CreateLongrunningOperation ⟨[("msg", "ping")]⟩).OperationError = none ∧
    (CreateLongrunningOperation ⟨[("msg", "ping")]⟩).OperationDone = false ∧
    (ProcessLongRunningOperationToCompletion [] "EchoResponse" envNeverDoneW
        (CreateLongrunningOperation ⟨[("msg", "ping")]⟩)).1 = .timedOut :=
  ⟨fun _ _ => ⟨_, rfl, rfl⟩, fun _ _ => ⟨_, rfl, rfl⟩, rfl, rfl,
   (await_timeout_not_stored [] "EchoResponse" envNeverDoneW
      (CreateLongrunningOperation ⟨[("msg", "ping")]⟩)
      (fun _ _ => ⟨_, rfl, rfl⟩) (fun _ _ => ⟨_, rfl, rfl⟩)
      rfl rfl).1⟩

/-- Witness instantiating `process_response_error_exclusive` after one
step against the renaming collaborators. -/
theorem process_response_error_exclusive_witness :
    ¬((iterProcess [] "EchoResponse" envRenameW 1
        (0, CreateLongrunningOperation ⟨[("msg", "ping")]⟩)).2.Response ≠ none ∧
      (iterProcess [] "EchoResponse" envRenameW 1
        (0, CreateLongrunningOperation ⟨[("msg", "ping")]⟩)).2.OperationError ≠ none) ∧
    ((iterProcess [] "EchoResponse" envRenameW 1
        (0, CreateLongrunningOperation ⟨[("msg", "ping")]⟩)).2.Response = none ∧
      (iterProcess [] "EchoResponse" envRenameW 1
        (0, CreateLongrunningOperation ⟨[("msg", "ping")]⟩)).2.OperationError = none →
      (iterProcess [] "EchoResponse" envRenameW 1
        (0, CreateLongrunningOperation ⟨[("msg", "ping")]⟩)).2.OperationDone = false) :=
  process_response_error_exclusive [] "EchoResponse" envRenameW
    ⟨[("msg", "ping")]⟩ 1
